import Mathlib

/-!
Shallow embedding of the `onesecmail` Go client library (files `1secmail.go`
and `domains.go`) and verification of its specification.

The library makes HTTP GET requests against a fixed API base URL and decodes
JSON responses.  The embedding models:

* Go `error` values produced by `fmt.Errorf` as a message string plus an
  optional wrapped error (`%w` operand);
* HTTP responses as a status code plus a body string; the injected
  `HTTPClient.Do` transport as a function from the built request to a pair
  `(Option Response, Option GoError)`, matching Go's `(*http.Response, error)`
  return (either component may be absent);
* `encoding/json` decoding as a JSON parser over the body characters followed
  by unmarshalling of the parsed value into the operation's Go target type;
* a Go panic (nil-pointer dereference) as a distinguished `panicked` outcome.
-/

/-- A Go `error` value as produced by `fmt.Errorf`: the rendered message
(`Error()`), and the wrapped error when the format used `%w`. -/
inductive GoError : Type where
  | mk (message : String) (wrapped : Option GoError)
deriving Repr

def GoError.message : GoError → String
  | .mk m _ => m

def GoError.wrapped : GoError → Option GoError
  | .mk _ w => w

/-- Rendering of a `%w` operand by `fmt.Errorf`: a nil error renders as
`%!w(<nil>)`, a non-nil error renders as its message. -/
def renderW : Option GoError → String
  | none => "%!w(<nil>)"
  | some e => e.message

/-- A JSON value, as produced by Go's `encoding/json` scanner.  Numbers are
restricted to integers (the wire format of this API only uses integer ids and
sizes; see `parseVal`). -/
inductive Json : Type where
  | null
  | bool (b : Bool)
  | num (n : Int)
  | str (s : String)
  | arr (elems : List Json)
  | obj (fields : List (String × Json))

/-! ### JSON parsing

Models `json.Decoder.Decode`'s scanning of one JSON value from the response
body: leading whitespace is skipped, one value is read, and anything after the
first complete value is ignored (a `json.Decoder` reads exactly one value per
`Decode` call).  Error messages are abbreviations of Go's. -/

def isJsonWs (c : Char) : Bool :=
  c = ' ' || c = '\t' || c = '\n' || c = '\r'

def skipWs : List Char → List Char
  | [] => []
  | c :: cs => if isJsonWs c then skipWs cs else c :: cs

def hexVal (c : Char) : Option Nat :=
  if '0' ≤ c && c ≤ '9' then some (c.toNat - 48)
  else if 'a' ≤ c && c ≤ 'f' then some (c.toNat - 87)
  else if 'A' ≤ c && c ≤ 'F' then some (c.toNat - 55)
  else none

def escChar (c : Char) : Option Char :=
  if c = '"' then some '"'
  else if c = '\\' then some '\\'
  else if c = '/' then some '/'
  else if c = 'b' then some (Char.ofNat 8)
  else if c = 'f' then some (Char.ofNat 12)
  else if c = 'n' then some '\n'
  else if c = 'r' then some (Char.ofNat 13)
  else if c = 't' then some '\t'
  else none

/-- Scans the body of a JSON string after the opening quote; returns the
decoded characters and the input remaining after the closing quote.
Unescaped control characters are rejected, as in Go. -/
def parseStringBody : List Char → Except String (List Char × List Char)
  | [] => .error "unexpected end of JSON input"
  | '"' :: rest => .ok ([], rest)
  | '\\' :: 'u' :: a :: b :: c :: d :: rest =>
    match hexVal a, hexVal b, hexVal c, hexVal d with
    | some ha, some hb, some hc, some hd =>
      match parseStringBody rest with
      | .error e => .error e
      | .ok (s, r) => .ok (Char.ofNat (((ha * 16 + hb) * 16 + hc) * 16 + hd) :: s, r)
    | _, _, _, _ => .error "invalid unicode escape in string literal"
  | '\\' :: e :: rest =>
    match escChar e with
    | none => .error "invalid escape in string literal"
    | some c =>
      match parseStringBody rest with
      | .error e => .error e
      | .ok (s, r) => .ok (c :: s, r)
  | ['\\'] => .error "unexpected end of JSON input"
  | c :: rest =>
    if c.toNat < 32 then .error "invalid control character in string literal"
    else
      match parseStringBody rest with
      | .error e => .error e
      | .ok (s, r) => .ok (c :: s, r)

def digitsAux (acc : Nat) : List Char → Nat × List Char
  | [] => (acc, [])
  | c :: cs => if c.isDigit then digitsAux (acc * 10 + (c.toNat - 48)) cs else (acc, c :: cs)

/-- After the digits of a number, the next character must end the value:
whitespace, a separator, or end of input.  A fraction or exponent is rejected
(the wire format only carries integers; for a body carrying a non-integer
number, Go would instead fail when unmarshalling it into an `int` field — at
the operation level both are the same decode failure). -/
def checkNumEnd (n : Int) (r : List Char) : Except String (Json × List Char) :=
  match r with
  | [] => .ok (.num n, [])
  | c :: _ =>
    if c = '.' || c = 'e' || c = 'E' then .error "unsupported number syntax"
    else if isJsonWs c || c = ',' || c = ']' || c = '}' then .ok (.num n, r)
    else .error "invalid character in numeric literal"

mutual

def parseVal : Nat → List Char → Except String (Json × List Char)
  | 0, _ => .error "exceeded max depth"
  | fuel + 1, cs =>
    match skipWs cs with
    | [] => .error "unexpected end of JSON input"
    | 'n' :: 'u' :: 'l' :: 'l' :: rest => .ok (.null, rest)
    | 't' :: 'r' :: 'u' :: 'e' :: rest => .ok (.bool true, rest)
    | 'f' :: 'a' :: 'l' :: 's' :: 'e' :: rest => .ok (.bool false, rest)
    | '"' :: rest =>
      match parseStringBody rest with
      | .error e => .error e
      | .ok (s, r) => .ok (.str (String.mk s), r)
    | '[' :: rest =>
      match skipWs rest with
      | ']' :: rest2 => .ok (.arr [], rest2)
      | rest2 =>
        match parseElems fuel rest2 with
        | .error e => .error e
        | .ok (vs, r) => .ok (.arr vs, r)
    | '{' :: rest =>
      match skipWs rest with
      | '}' :: rest2 => .ok (.obj [], rest2)
      | rest2 =>
        match parseFields fuel rest2 with
        | .error e => .error e
        | .ok (fs, r) => .ok (.obj fs, r)
    | '-' :: c :: rest =>
      if c.isDigit then
        if c = '0' && (match rest with | r :: _ => r.isDigit | [] => false) then
          .error "invalid leading zero in number"
        else
          let (n, r) := digitsAux (c.toNat - 48) rest
          checkNumEnd (-(n : Int)) r
      else .error "invalid character after minus sign"
    | c :: rest =>
      if c.isDigit then
        if c = '0' && (match rest with | r :: _ => r.isDigit | [] => false) then
          .error "invalid leading zero in number"
        else
          let (n, r) := digitsAux (c.toNat - 48) rest
          checkNumEnd (n : Int) r
      else .error "invalid character looking for beginning of value"

def parseElems : Nat → List Char → Except String (List Json × List Char)
  | 0, _ => .error "exceeded max depth"
  | fuel + 1, cs =>
    match parseVal fuel cs with
    | .error e => .error e
    | .ok (v, rest) =>
      match skipWs rest with
      | ',' :: rest2 =>
        match parseElems fuel rest2 with
        | .error e => .error e
        | .ok (vs, r) => .ok (v :: vs, r)
      | ']' :: rest2 => .ok ([v], rest2)
      | _ => .error "invalid character after array element"

def parseFields : Nat → List Char → Except String (List (String × Json) × List Char)
  | 0, _ => .error "exceeded max depth"
  | fuel + 1, cs =>
    match skipWs cs with
    | '"' :: rest =>
      match parseStringBody rest with
      | .error e => .error e
      | .ok (k, rest1) =>
        match skipWs rest1 with
        | ':' :: rest2 =>
          match parseVal fuel rest2 with
          | .error e => .error e
          | .ok (v, rest3) =>
            match skipWs rest3 with
            | ',' :: rest4 =>
              match parseFields fuel rest4 with
              | .error e => .error e
              | .ok (fs, r) => .ok ((String.mk k, v) :: fs, r)
            | '}' :: rest4 => .ok ([(String.mk k, v)], rest4)
            | _ => .error "invalid character after object key-value pair"
        | _ => .error "invalid character after object key"
    | _ => .error "invalid character looking for object key"

end

/-- Parses one JSON value from the body, ignoring anything after it, as
`json.Decoder.Decode` does.  The fuel bound `length + 1` is never reached on a
well-formed input (each recursion step consumes at least one character of
nesting syntax). -/
def parseOne (s : String) : Except String Json :=
  match parseVal (s.data.length + 1) s.data with
  | .error e => .error e
  | .ok (v, _) => .ok v

example : parseOne "null" = .ok .null := rfl
example : parseOne "  [1, -2]" = .ok (.arr [.num 1, .num (-2)]) := rfl
example : parseOne "" = .error "unexpected end of JSON input" := rfl
example : parseOne "[\x7b\"a\":\"b\"\x7d]" = .ok (.arr [.obj [("a", .str "b")]]) := rfl
example : parseOne "[\x7b\"id\":639,\"from\":\"x\",\"subject\":\"s\",\"date\":\"2018]" =
    .error "unexpected end of JSON input" := rfl

/-! ### Data model (`Mail`, `Attachment`) and unmarshalling

Models `encoding/json` unmarshalling of the parsed value into the Go target
types `[]*Mail`, `*Mail`, and `[]string`.  Go semantics followed here:

* missing keys leave the zero value in place; a JSON `null` for a
  non-pointer field is a no-op, a JSON `null` for a pointer field clears it;
* unknown keys are ignored; duplicate keys are applied in order (last wins);
* a mistyped value is an unmarshalling error;
* unmarshalling `null` into a slice or pointer target yields Go `nil`
  (modelled as `[]` / `none`).

Wire keys are matched exactly; Go additionally accepts case-insensitive
matches, which this API's wire format (all keys exact) never exercises. -/

/-- The `Attachment` struct from `1secmail.go` (JSON keys `filename`,
`contentType`, `size`). -/
structure Attachment : Type where
  Filename : String
  ContentType : String
  Size : Int
deriving Repr, DecidableEq

/-- The `Mail` struct from `1secmail.go`.  `Body`, `TextBody`, `HTMLBody` are
`*string` in Go (absent = `nil`); `Attachments` is a slice (Go `nil` slice
modelled as `[]`). -/
structure Mail : Type where
  ID : Int
  From : String
  Subject : String
  Date : String
  Attachments : List Attachment
  Body : Option String
  TextBody : Option String
  HTMLBody : Option String
deriving Repr, DecidableEq

/-- The zero value a Go struct starts from before unmarshalling. -/
def zeroAttachment : Attachment :=
  { Filename := "", ContentType := "", Size := 0 }

def zeroMail : Mail :=
  { ID := 0, From := "", Subject := "", Date := "", Attachments := []
    Body := none, TextBody := none, HTMLBody := none }

/-- Unmarshals one JSON value into a Go `string` field: strings assign, `null`
is a no-op, anything else is a type error. -/
def setStrField {α : Type} (v : Json) (assign : String → α) (keep : α) : Except String α :=
  match v with
  | .str s => .ok (assign s)
  | .null => .ok keep
  | _ => .error "cannot unmarshal value into Go field of type string"

/-- Unmarshals one JSON value into a Go `*string` field: strings allocate and
assign, `null` clears the pointer, anything else is a type error. -/
def setOptStrField {α : Type} (v : Json) (assign : Option String → α) : Except String α :=
  match v with
  | .str s => .ok (assign (some s))
  | .null => .ok (assign none)
  | _ => .error "cannot unmarshal value into Go field of type *string"

def applyAttachmentField (a : Attachment) (k : String) (v : Json) : Except String Attachment :=
  if k = "filename" then setStrField v (fun s => { a with Filename := s }) a
  else if k = "contentType" then setStrField v (fun s => { a with ContentType := s }) a
  else if k = "size" then
    match v with
    | .num n => .ok { a with Size := n }
    | .null => .ok a
    | _ => .error "cannot unmarshal value into Go field of type int"
  else .ok a

def foldFields {α : Type} (apply : α → String → Json → Except String α) :
    α → List (String × Json) → Except String α
  | a, [] => .ok a
  | a, (k, v) :: rest =>
    match apply a k v with
    | .error e => .error e
    | .ok a2 => foldFields apply a2 rest

def decodeAttachmentJson (j : Json) : Except String Attachment :=
  match j with
  | .obj fs => foldFields applyAttachmentField zeroAttachment fs
  | .null => .ok zeroAttachment
  | _ => .error "cannot unmarshal value into Go value of type onesecmail.Attachment"

def decodeAttachmentList : List Json → Except String (List Attachment)
  | [] => .ok []
  | j :: js =>
    match decodeAttachmentJson j with
    | .error e => .error e
    | .ok a =>
      match decodeAttachmentList js with
      | .error e => .error e
      | .ok rest => .ok (a :: rest)

def applyMailField (m : Mail) (k : String) (v : Json) : Except String Mail :=
  if k = "id" then
    match v with
    | .num n => .ok { m with ID := n }
    | .null => .ok m
    | _ => .error "cannot unmarshal value into Go field of type int"
  else if k = "from" then setStrField v (fun s => { m with From := s }) m
  else if k = "subject" then setStrField v (fun s => { m with Subject := s }) m
  else if k = "date" then setStrField v (fun s => { m with Date := s }) m
  else if k = "attachments" then
    match v with
    | .arr js =>
      match decodeAttachmentList js with
      | .error e => .error e
      | .ok l => .ok { m with Attachments := l }
    | .null => .ok m
    | _ => .error "cannot unmarshal value into Go field of type []onesecmail.Attachment"
  else if k = "body" then setOptStrField v (fun s => { m with Body := s })
  else if k = "textBody" then setOptStrField v (fun s => { m with TextBody := s })
  else if k = "htmlBody" then setOptStrField v (fun s => { m with HTMLBody := s })
  else .ok m

/-- Unmarshals a JSON object's fields into a `Mail`, starting from the zero
value and applying keys in order. -/
def decodeMailObj (fs : List (String × Json)) : Except String Mail :=
  foldFields applyMailField zeroMail fs

/-- Unmarshals one JSON value into a Go `*Mail`: `null` yields a nil pointer,
an object allocates and fills a `Mail`. -/
def decodeMailPtr (j : Json) : Except String (Option Mail) :=
  match j with
  | .null => .ok none
  | .obj fs =>
    match decodeMailObj fs with
    | .error e => .error e
    | .ok m => .ok (some m)
  | _ => .error "cannot unmarshal value into Go value of type onesecmail.Mail"

def decodePtrList : List Json → Except String (List (Option Mail))
  | [] => .ok []
  | j :: js =>
    match decodeMailPtr j with
    | .error e => .error e
    | .ok m =>
      match decodePtrList js with
      | .error e => .error e
      | .ok rest => .ok (m :: rest)

/-- Unmarshals into Go `[]*Mail` (target of `CheckInbox`). -/
def decodeMailPtrList (j : Json) : Except String (List (Option Mail)) :=
  match j with
  | .null => .ok []
  | .arr js => decodePtrList js
  | _ => .error "cannot unmarshal value into Go value of type []*onesecmail.Mail"

def decodeStrElems : List Json → Except String (List String)
  | [] => .ok []
  | j :: js =>
    match j with
    | .str s =>
      match decodeStrElems js with
      | .error e => .error e
      | .ok rest => .ok (s :: rest)
    | .null =>
      match decodeStrElems js with
      | .error e => .error e
      | .ok rest => .ok ("" :: rest)
    | _ => .error "cannot unmarshal value into Go value of type string"

/-- Unmarshals into Go `[]string` (target of `RandomAddresses` and
`Domains`). -/
def decodeStringList (j : Json) : Except String (List String) :=
  match j with
  | .null => .ok []
  | .arr js => decodeStrElems js
  | _ => .error "cannot unmarshal value into Go value of type []string"

/-- Models `json.NewDecoder(resp.Body).Decode(&target)`: parse one value then
unmarshal it. -/
def runDecode {α : Type} (dec : Json → Except String α) (body : String) : Except String α :=
  match parseOne body with
  | .error e => .error e
  | .ok j => dec j

example :
    runDecode decodeMailPtrList "[\x7b\"id\":639,\"from\":\"a@b.c\",\"subject\":\"s\",\"date\":\"2018-06-08\"\x7d]" =
    .ok [some { zeroMail with ID := 639, From := "a@b.c", Subject := "s", Date := "2018-06-08" }] := rfl
example : runDecode decodeMailPtr "null" = .ok none := rfl
example : runDecode decodeStringList "[\"a\",\"b\"]" = .ok ["a", "b"] := rfl

/-! ### Domain registry, `Mailbox`, constructors (`domains.go`, `1secmail.go`)

The registry is the fixed key set of the Go map `Domains` in `domains.go`
(read-only after initialization; its unused mutex is irrelevant to behavior).
Construction never touches the transport: `NewMailbox` and
`NewMailboxWithAddress` are pure and take no transport argument. -/

def Domains : List String :=
  ["1secmail.com", "1secmail.org", "1secmail.net", "bheps.com",
   "dcctb.com", "kzccv.com", "qiott.com", "wuuvo.com"]

/-- The `Mailbox` struct from `1secmail.go`: a login and a domain.  The embedded
`HTTPClient` is not stored; operations receive the transport explicitly. -/
structure Mailbox : Type where
  Login : String
  Domain : String
deriving Repr, DecidableEq

/-- Method `Mailbox.Address`: `fmt.Sprintf("%s@%s", m.Login, m.Domain)`. -/
def Mailbox.Address (m : Mailbox) : String :=
  m.Login ++ "@" ++ m.Domain

/-- Models `fmt.Errorf("invalid domain: %s", domain)`. -/
def invalidDomainError (domain : String) : GoError :=
  .mk ("invalid domain: " ++ domain) none

/-- Models `fmt.Errorf("invalid email address: %s", address)`. -/
def invalidAddressError (address : String) : GoError :=
  .mk ("invalid email address: " ++ address) none

/-- Constructor `NewMailbox` from `1secmail.go`: rejects a domain that is not a key of
the registry, otherwise builds the mailbox. -/
def NewMailbox (login domain : String) : Except GoError Mailbox :=
  if Domains.contains domain then .ok { Login := login, Domain := domain }
  else .error (invalidDomainError domain)

/-- Models `strings.Cut(s, "@")` on the character list: splits around the first
`'@'`, returning `(before, after, found)`; when `'@'` is absent, returns
`(s, "", false)`. -/
def cutAux : List Char → List Char × List Char × Bool
  | [] => ([], [], false)
  | c :: cs =>
    if c = '@' then ([], cs, true)
    else
      let r := cutAux cs
      (c :: r.1, r.2.1, r.2.2)

def goCut (s : String) : String × String × Bool :=
  let r := cutAux s.data
  (String.mk r.1, String.mk r.2.1, r.2.2)

/-- Constructor `NewMailboxWithAddress` from `1secmail.go`: cuts the address at the first
`@`; when the `@` is absent or either part is empty, fails with the
invalid-address error; otherwise defers to `NewMailbox`. -/
def NewMailboxWithAddress (address : String) : Except GoError Mailbox :=
  let c := goCut address
  if c.2.2 = false ∨ c.1 = "" ∨ c.2.1 = "" then
    .error (invalidAddressError address)
  else NewMailbox c.1 c.2.1

example : NewMailboxWithAddress "a@b@c" = .error (invalidDomainError "b@c") := rfl
example : NewMailboxWithAddress "a@1secmail.com" = .ok { Login := "a", Domain := "1secmail.com" } := rfl
example : NewMailboxWithAddress "a@" = .error (invalidAddressError "a@") := rfl

/-! ### Request construction (`constructRequest`) -/

/-- Byte-wise (here: code-point-wise) lexicographic order on keys, the order
`url.Values.Encode` sorts query keys into. -/
def charListLe : List Char → List Char → Bool
  | [], _ => true
  | _ :: _, [] => false
  | a :: as2, b :: bs2 =>
    if a < b then true
    else if b < a then false
    else charListLe as2 bs2

def insertByKey (x : String × String) : List (String × String) → List (String × String)
  | [] => [x]
  | y :: ys => if charListLe x.1.data y.1.data then x :: y :: ys else y :: insertByKey x ys

/-- Models how `url.Values.Encode` sorts the query parameters by key. -/
def sortByKey : List (String × String) → List (String × String)
  | [] => []
  | x :: xs => insertByKey x (sortByKey xs)

/-- The `mailboxAction` enumeration from `1secmail.go`. -/
inductive mailboxAction : Type where
  | getMessages
  | readMessage
  | download
  | genRandomMailbox
  | getDomainList
deriving Repr, DecidableEq

/-- The `String()` method's lookup table for `mailboxAction`. -/
def actionName : mailboxAction → String
  | .getMessages => "getMessages"
  | .readMessage => "readMessage"
  | .download => "download"
  | .genRandomMailbox => "genRandomMailbox"
  | .getDomainList => "getDomainList"

/-- The fixed API root (`const apiBase` in `constructRequest`). -/
def apiBase : String := "https://www.1secmail.com/api/v1/"

/-- An HTTP request as built by `constructRequest`: method, base URL, and the
query parameters after `Encode` (sorted by key).  `Encode` additionally
percent-escapes keys and values when rendering the query string; the
parameters themselves are modelled unescaped. -/
structure Request : Type where
  method : String
  url : String
  query : List (String × String)
deriving Repr, DecidableEq

/-- Function `constructRequest` from `1secmail.go`: a request against `apiBase` whose
query holds `action` plus the given arguments.  Go ranges over the `args` map
in unspecified order, but `Encode` sorts by key, so the result is the sorted
list regardless. -/
def constructRequest (method : String) (action : mailboxAction)
    (args : List (String × String)) : Request :=
  { method := method, url := apiBase
    query := sortByKey (("action", actionName action) :: args) }

def CheckInboxRequest (m : Mailbox) : Request :=
  constructRequest "GET" .getMessages [("login", m.Login), ("domain", m.Domain)]

def ReadMessageRequest (m : Mailbox) (messageID : Int) : Request :=
  constructRequest "GET" .readMessage
    [("login", m.Login), ("domain", m.Domain), ("id", toString messageID)]

def RandomAddressesRequest (count : Int) : Request :=
  constructRequest "GET" .genRandomMailbox [("count", toString count)]

def DomainsRequest : Request :=
  constructRequest "GET" .getDomainList []

/-! ### Remote operations -/

/-- Models `http.Response`: status code and body contents. -/
structure Response : Type where
  StatusCode : Int
  Body : String
deriving Repr, DecidableEq

/-- The injected transport (`HTTPClient.Do`): Go returns
`(*http.Response, error)`, either of which may be nil. -/
def Transport : Type := Request → Option Response × Option GoError

/-- A transport stub that always returns a response with the given status and
body, and a nil error. -/
def stubTransport (status : Int) (body : String) : Transport :=
  fun _ => (some { StatusCode := status, Body := body }, none)

/-- A transport stub that always fails with the given error and a nil
response. -/
def failTransport (e : GoError) : Transport :=
  fun _ => (none, some e)

/-- Outcome of one operation call: a normal return of a value, a normal
return of an error, or an uncontrolled abort (Go runtime panic, e.g. a
nil-pointer dereference). -/
inductive OpResult (α : Type) : Type where
  | panicked
  | err (e : GoError)
  | ok (a : α)
deriving Repr

/-- The guard `resp != nil && resp.StatusCode != 200`. -/
def respNon200 (resp : Option Response) : Bool :=
  match resp with
  | some r => r.StatusCode != 200
  | none => false

/-- Models `fmt.Errorf("check inbox failed: %w, error code: %v", err, resp.StatusCode)`. -/
def checkInboxFailedError (e : Option GoError) (status : Int) : GoError :=
  .mk ("check inbox failed: " ++ renderW e ++ ", error code: " ++ toString status) e

/-- Models `fmt.Errorf("read message failed: %w", err)`. -/
def readMessageFailedError (e : Option GoError) : GoError :=
  .mk ("read message failed: " ++ renderW e) e

/-- Models `fmt.Errorf("generate random mailbox failed: %w", err)`. -/
def randomFailedError (e : Option GoError) : GoError :=
  .mk ("generate random mailbox failed: " ++ renderW e) e

/-- Models `fmt.Errorf("get domain list failed: %w", err)`. -/
def domainListFailedError (e : Option GoError) : GoError :=
  .mk ("get domain list failed: " ++ renderW e) e

/-- Models `fmt.Errorf("decode JSON failed: %w", err)` — `err` is the JSON parse or
unmarshal failure, always non-nil here. -/
def decodeJSONError (e : String) : GoError :=
  .mk ("decode JSON failed: " ++ e) (some (.mk e none))

/-- Method `Mailbox.CheckInbox`.  On the failure path Go formats
`resp.StatusCode` into the message, which dereferences a nil response and
panics when the transport returned no response; on the success path a nil
response panics at `resp.Body`. -/
def Mailbox.CheckInbox (m : Mailbox) (t : Transport) : OpResult (List (Option Mail)) :=
  match t (CheckInboxRequest m) with
  | (resp, err) =>
    if err.isSome || respNon200 resp then
      match resp with
      | none => .panicked
      | some r => .err (checkInboxFailedError err r.StatusCode)
    else
      match resp with
      | none => .panicked
      | some r =>
        match runDecode decodeMailPtrList r.Body with
        | .error e => .err (decodeJSONError e)
        | .ok mails => .ok mails

/-- Method `Mailbox.ReadMessage`: its failure message does not touch the response. -/
def Mailbox.ReadMessage (m : Mailbox) (messageID : Int) (t : Transport) :
    OpResult (Option Mail) :=
  match t (ReadMessageRequest m messageID) with
  | (resp, err) =>
    if err.isSome || respNon200 resp then .err (readMessageFailedError err)
    else
      match resp with
      | none => .panicked
      | some r =>
        match runDecode decodeMailPtr r.Body with
        | .error e => .err (decodeJSONError e)
        | .ok mail => .ok mail

/-- Method `API.RandomAddresses`. -/
def RandomAddresses (count : Int) (t : Transport) : OpResult (List String) :=
  match t (RandomAddressesRequest count) with
  | (resp, err) =>
    if err.isSome || respNon200 resp then .err (randomFailedError err)
    else
      match resp with
      | none => .panicked
      | some r =>
        match runDecode decodeStringList r.Body with
        | .error e => .err (decodeJSONError e)
        | .ok list => .ok list

/-- Method `API.Domains` (the remote domain-list operation, distinct from the local
registry `Domains`). -/
def DomainsList (t : Transport) : OpResult (List String) :=
  match t DomainsRequest with
  | (resp, err) =>
    if err.isSome || respNon200 resp then .err (domainListFailedError err)
    else
      match resp with
      | none => .panicked
      | some r =>
        match runDecode decodeStringList r.Body with
        | .error e => .err (decodeJSONError e)
        | .ok list => .ok list

example :
    Mailbox.CheckInbox { Login := "foo", Domain := "bar" }
      (failTransport (.mk "connection refused" none)) = .panicked := rfl
example :
    Mailbox.ReadMessage { Login := "foo", Domain := "bar" } 1
      (failTransport (.mk "connection refused" none)) =
    .err (readMessageFailedError (some (.mk "connection refused" none))) := rfl
example :
    DomainsList (stubTransport 500 "") = .err (domainListFailedError none) := rfl
example :
    Mailbox.CheckInbox { Login := "foo", Domain := "bar" } (stubTransport 200 "null") = .ok [] := rfl

/-! ### General helper lemmas -/

lemma data_append (a b : String) : (a ++ b).data = a.data ++ b.data := rfl

lemma mk_nil_eq_empty : String.mk [] = "" := rfl

lemma mk_data (s : String) : String.mk s.data = s := rfl

lemma mk_eq_empty_iff (l : List Char) : String.mk l = "" ↔ l = [] :=
  ⟨fun h => congrArg String.data h, fun h => by rw [h]⟩

lemma isInfixAppendLeft {x l r : List Char} (h : x <:+: l) : x <:+: l ++ r := by
  obtain ⟨s, t, hst⟩ := h
  exact ⟨s, t ++ r, by rw [← hst]; simp⟩

lemma isInfixAppendRight {x l r : List Char} (h : x <:+: r) : x <:+: l ++ r := by
  obtain ⟨s, t, hst⟩ := h
  exact ⟨l ++ s, t, by rw [← hst]; simp⟩

lemma selfInfixAppend (x r : List Char) : x <:+: x ++ r :=
  ⟨[], r, by simp⟩

lemma appendSelfInfix (l x : List Char) : x <:+: l ++ x :=
  ⟨l, [], by simp⟩

/-- Go's `strings.Contains`: the pattern occurs as a contiguous substring. -/
def containsSubstr (s pat : String) : Prop :=
  pat.data <:+: s.data

instance (s pat : String) : Decidable (containsSubstr s pat) := by
  unfold containsSubstr
  infer_instance

lemma goErrorNeOfMessageNe {m1 m2 : String} {w1 w2 : Option GoError}
    (h : m1 ≠ m2) : GoError.mk m1 w1 ≠ GoError.mk m2 w2 := by
  intro he
  injection he with he1 _
  exact h he1

/-! ### C1 -/

/-- C1: the claim says every remote operation returns all transport failures
as error values and never panics, in particular not on a transport error with
a nil response.  The code violates this: `CheckInbox` formats
`resp.StatusCode` into its failure message, dereferencing the nil response
and panicking, while the other three operations do return error values on the
same transport outcome.  This theorem evaluates the code at the failing
input. -/
theorem claim_C1_checkInbox_panics :
    Mailbox.CheckInbox { Login := "foo", Domain := "1secmail.com" }
      (failTransport (.mk "connection refused" none)) = .panicked
  ∧ Mailbox.ReadMessage { Login := "foo", Domain := "1secmail.com" } 1
      (failTransport (.mk "connection refused" none)) =
        .err (readMessageFailedError (some (.mk "connection refused" none)))
  ∧ RandomAddresses 5 (failTransport (.mk "connection refused" none)) =
        .err (randomFailedError (some (.mk "connection refused" none)))
  ∧ DomainsList (failTransport (.mk "connection refused" none)) =
        .err (domainListFailedError (some (.mk "connection refused" none))) :=
  ⟨rfl, rfl, rfl, rfl⟩

/-! ### C10 -/

/-- C10: `ReadMessage` can succeed without producing a message — on status
200 with body `null` (valid JSON), it returns a nil `Mail` pointer and a nil
error, for every mailbox and message id. -/
theorem claim_C10_readMessage_null (m : Mailbox) (messageID : Int) :
    m.ReadMessage messageID (stubTransport 200 "null") = .ok none := rfl

/-! ### C5 -/

/-- C5: for every domain not in the registry and every login (including the
empty string), `NewMailbox` fails with the invalid-domain construction error
and yields no mailbox.  The embedded `NewMailbox` takes no transport at all,
reflecting that the Go constructor performs no call on the injected client. -/
theorem claim_C5_invalid_domain (login domain : String)
    (h : Domains.contains domain = false) :
    NewMailbox login domain = .error (invalidDomainError domain) := by
  unfold NewMailbox
  rw [h]
  simp

theorem claim_C5_witness :
    Domains.contains "example.com" = false
  ∧ NewMailbox "" "example.com" = .error (invalidDomainError "example.com") :=
  ⟨by decide, claim_C5_invalid_domain "" "example.com" (by decide)⟩

/-! ### C2 -/

/-- C2 counterexample: the claim says every remote operation's non-200 error
message contains the numeric status code.  It does not: `ReadMessage` against
a 500 response returns `read message failed: %!w(<nil>)`, which contains no
`500` (the same holds for `RandomAddresses` and `Domains`); only `CheckInbox`
formats the status code into its message. -/
theorem claim_C2_counterexample :
    Mailbox.ReadMessage { Login := "foo", Domain := "1secmail.com" } 1
      (stubTransport 500 "") = .err (readMessageFailedError none)
  ∧ (readMessageFailedError none).message = "read message failed: %!w(<nil>)"
  ∧ ¬ containsSubstr (readMessageFailedError none).message "500" :=
  ⟨rfl, rfl, by decide⟩

lemma checkInbox_stub_non200 (m : Mailbox) (status : Int) (body : String)
    (h : status ≠ 200) :
    m.CheckInbox (stubTransport status body) = .err (checkInboxFailedError none status) := by
  unfold Mailbox.CheckInbox stubTransport
  simp [respNon200, h]

lemma readMessage_stub_non200 (m : Mailbox) (messageID : Int) (status : Int)
    (body : String) (h : status ≠ 200) :
    m.ReadMessage messageID (stubTransport status body) = .err (readMessageFailedError none) := by
  unfold Mailbox.ReadMessage stubTransport
  simp [respNon200, h]

lemma randomAddresses_stub_non200 (count : Int) (status : Int) (body : String)
    (h : status ≠ 200) :
    RandomAddresses count (stubTransport status body) = .err (randomFailedError none) := by
  unfold RandomAddresses stubTransport
  simp [respNon200, h]

lemma domainsList_stub_non200 (status : Int) (body : String) (h : status ≠ 200) :
    DomainsList (stubTransport status body) = .err (domainListFailedError none) := by
  unfold DomainsList stubTransport
  simp [respNon200, h]

/-- C2 amended: on a non-200 response each operation returns an error (and no
value); each message contains the operation's name, but only `CheckInbox`'s
message also contains the numeric status code — the other three wrap only the
(here nil) transport error. -/
theorem claim_C2_amended (status : Int) (h : status ≠ 200) (body : String)
    (m : Mailbox) (messageID count : Int) :
    (m.CheckInbox (stubTransport status body) = .err (checkInboxFailedError none status)
      ∧ containsSubstr (checkInboxFailedError none status).message "check inbox"
      ∧ containsSubstr (checkInboxFailedError none status).message (toString status))
  ∧ (m.ReadMessage messageID (stubTransport status body) = .err (readMessageFailedError none)
      ∧ containsSubstr (readMessageFailedError none).message "read message")
  ∧ (RandomAddresses count (stubTransport status body) = .err (randomFailedError none)
      ∧ containsSubstr (randomFailedError none).message "generate random mailbox")
  ∧ (DomainsList (stubTransport status body) = .err (domainListFailedError none)
      ∧ containsSubstr (domainListFailedError none).message "get domain list") := by
  refine ⟨⟨checkInbox_stub_non200 m status body h, ?_, ?_⟩,
    ⟨readMessage_stub_non200 m messageID status body h, by decide⟩,
    ⟨randomAddresses_stub_non200 count status body h, by decide⟩,
    ⟨domainsList_stub_non200 status body h, by decide⟩⟩
  · show "check inbox".data <:+:
      (("check inbox failed: %!w(<nil>), error code: ").data ++ (toString status).data)
    exact isInfixAppendLeft (by decide)
  · show (toString status).data <:+:
      (("check inbox failed: %!w(<nil>), error code: ").data ++ (toString status).data)
    exact appendSelfInfix _ _

theorem claim_C2_amended_witness :
    (Mailbox.CheckInbox { Login := "foo", Domain := "1secmail.com" }
        (stubTransport 500 "") = .err (checkInboxFailedError none 500)
      ∧ containsSubstr (checkInboxFailedError none 500).message "check inbox"
      ∧ containsSubstr (checkInboxFailedError none 500).message (toString (500 : Int)))
  ∧ (Mailbox.ReadMessage { Login := "foo", Domain := "1secmail.com" } 7
        (stubTransport 500 "") = .err (readMessageFailedError none)
      ∧ containsSubstr (readMessageFailedError none).message "read message")
  ∧ (RandomAddresses 5 (stubTransport 500 "") = .err (randomFailedError none)
      ∧ containsSubstr (randomFailedError none).message "generate random mailbox")
  ∧ (DomainsList (stubTransport 500 "") = .err (domainListFailedError none)
      ∧ containsSubstr (domainListFailedError none).message "get domain list") :=
  claim_C2_amended 500 (by decide) "" { Login := "foo", Domain := "1secmail.com" } 7 5

/-! ### C8 -/

lemma insertByKey_perm (x : String × String) (l : List (String × String)) :
    (insertByKey x l).Perm (x :: l) := by
  induction l with
  | nil => exact List.Perm.refl _
  | cons y ys ih =>
    unfold insertByKey
    split
    · exact List.Perm.refl _
    · exact (ih.cons y).trans (List.Perm.swap x y ys)

lemma sortByKey_perm (l : List (String × String)) : (sortByKey l).Perm l := by
  induction l with
  | nil => exact List.Perm.refl _
  | cons x xs ih => exact (insertByKey_perm x (sortByKey xs)).trans (ih.cons x)

/-- C8: every operation's request is a GET against the fixed API base URL,
and its query holds the `action` parameter with the operation's stable name
plus exactly the operation-specific parameters (`Encode` sorts them by key;
the permutation states the exact multiset of parameters). -/
theorem claim_C8_requests (m : Mailbox) (messageID count : Int) :
    ((CheckInboxRequest m).method = "GET" ∧ (CheckInboxRequest m).url = apiBase
      ∧ (CheckInboxRequest m).query.Perm
          [("action", "getMessages"), ("login", m.Login), ("domain", m.Domain)])
  ∧ ((ReadMessageRequest m messageID).method = "GET"
      ∧ (ReadMessageRequest m messageID).url = apiBase
      ∧ (ReadMessageRequest m messageID).query.Perm
          [("action", "readMessage"), ("login", m.Login), ("domain", m.Domain),
           ("id", toString messageID)])
  ∧ ((RandomAddressesRequest count).method = "GET"
      ∧ (RandomAddressesRequest count).url = apiBase
      ∧ (RandomAddressesRequest count).query.Perm
          [("action", "genRandomMailbox"), ("count", toString count)])
  ∧ (DomainsRequest.method = "GET" ∧ DomainsRequest.url = apiBase
      ∧ DomainsRequest.query.Perm [("action", "getDomainList")]) :=
  ⟨⟨rfl, rfl, sortByKey_perm _⟩, ⟨rfl, rfl, sortByKey_perm _⟩,
   ⟨rfl, rfl, sortByKey_perm _⟩, ⟨rfl, rfl, sortByKey_perm _⟩⟩

/-! ### C7 -/

lemma checkInbox_stub_decode_error (m : Mailbox) (body e : String)
    (hp : parseOne body = .error e) :
    m.CheckInbox (stubTransport 200 body) = .err (decodeJSONError e) := by
  unfold Mailbox.CheckInbox stubTransport
  simp [respNon200, runDecode, hp]

lemma readMessage_stub_decode_error (m : Mailbox) (messageID : Int) (body e : String)
    (hp : parseOne body = .error e) :
    m.ReadMessage messageID (stubTransport 200 body) = .err (decodeJSONError e) := by
  unfold Mailbox.ReadMessage stubTransport
  simp [respNon200, runDecode, hp]

lemma randomAddresses_stub_decode_error (count : Int) (body e : String)
    (hp : parseOne body = .error e) :
    RandomAddresses count (stubTransport 200 body) = .err (decodeJSONError e) := by
  unfold RandomAddresses stubTransport
  simp [respNon200, runDecode, hp]

lemma domainsList_stub_decode_error (body e : String)
    (hp : parseOne body = .error e) :
    DomainsList (stubTransport 200 body) = .err (decodeJSONError e) := by
  unfold DomainsList stubTransport
  simp [respNon200, runDecode, hp]

lemma decode_head : ∀ e : String, ("decode JSON failed: " ++ e).data.head? = some 'd' :=
  fun _ => rfl

/-- C7: on a 200 response whose body fails to parse as JSON, every operation
returns the decode error — which wraps the underlying parse failure — and no
value; and that decode error differs from every transport/status error of
every operation (their messages start with different operation phrases). -/
theorem claim_C7_decode_error (body e : String) (hp : parseOne body = .error e)
    (m : Mailbox) (messageID count : Int) :
    (m.CheckInbox (stubTransport 200 body) = .err (decodeJSONError e)
      ∧ m.ReadMessage messageID (stubTransport 200 body) = .err (decodeJSONError e)
      ∧ RandomAddresses count (stubTransport 200 body) = .err (decodeJSONError e)
      ∧ DomainsList (stubTransport 200 body) = .err (decodeJSONError e))
  ∧ (decodeJSONError e).wrapped = some (.mk e none)
  ∧ (∀ w status, decodeJSONError e ≠ checkInboxFailedError w status)
  ∧ (∀ w, decodeJSONError e ≠ readMessageFailedError w)
  ∧ (∀ w, decodeJSONError e ≠ randomFailedError w)
  ∧ (∀ w, decodeJSONError e ≠ domainListFailedError w) := by
  refine ⟨⟨checkInbox_stub_decode_error m body e hp,
      readMessage_stub_decode_error m messageID body e hp,
      randomAddresses_stub_decode_error count body e hp,
      domainsList_stub_decode_error body e hp⟩, rfl, ?_, ?_, ?_, ?_⟩
  · intro w status
    apply goErrorNeOfMessageNe
    intro hmsg
    have h2 : some 'd' = some 'c' := congrArg (fun s : String => s.data.head?) hmsg
    exact absurd h2 (by decide)
  · intro w
    apply goErrorNeOfMessageNe
    intro hmsg
    have h2 : some 'd' = some 'r' := congrArg (fun s : String => s.data.head?) hmsg
    exact absurd h2 (by decide)
  · intro w
    apply goErrorNeOfMessageNe
    intro hmsg
    have h2 : some 'd' = some 'g' := congrArg (fun s : String => s.data.head?) hmsg
    exact absurd h2 (by decide)
  · intro w
    apply goErrorNeOfMessageNe
    intro hmsg
    have h2 : some 'd' = some 'g' := congrArg (fun s : String => s.data.head?) hmsg
    exact absurd h2 (by decide)

theorem claim_C7_witness :
    (Mailbox.CheckInbox { Login := "foo", Domain := "1secmail.com" }
        (stubTransport 200 "") = .err (decodeJSONError "unexpected end of JSON input")
      ∧ Mailbox.ReadMessage { Login := "foo", Domain := "1secmail.com" } 7
          (stubTransport 200 "") = .err (decodeJSONError "unexpected end of JSON input")
      ∧ RandomAddresses 5 (stubTransport 200 "")
          = .err (decodeJSONError "unexpected end of JSON input")
      ∧ DomainsList (stubTransport 200 "")
          = .err (decodeJSONError "unexpected end of JSON input"))
  ∧ (decodeJSONError "unexpected end of JSON input").wrapped
      = some (.mk "unexpected end of JSON input" none)
  ∧ (∀ w status, decodeJSONError "unexpected end of JSON input" ≠ checkInboxFailedError w status)
  ∧ (∀ w, decodeJSONError "unexpected end of JSON input" ≠ readMessageFailedError w)
  ∧ (∀ w, decodeJSONError "unexpected end of JSON input" ≠ randomFailedError w)
  ∧ (∀ w, decodeJSONError "unexpected end of JSON input" ≠ domainListFailedError w) :=
  claim_C7_decode_error "" "unexpected end of JSON input" rfl
    { Login := "foo", Domain := "1secmail.com" } 7 5

/-! ### Lemmas about `strings.Cut` -/

lemma cutAux_of_not_mem (cs : List Char) (h : '@' ∉ cs) : cutAux cs = (cs, [], false) := by
  induction cs with
  | nil => rfl
  | cons c cs ih =>
    have hc : ¬ c = '@' := fun hh => h (hh ▸ List.mem_cons_self c cs)
    have hcs : '@' ∉ cs := fun hh => h (List.mem_cons_of_mem c hh)
    simp [cutAux, hc, ih hcs]

lemma cutAux_split (l d : List Char) (h : '@' ∉ l) :
    cutAux (l ++ '@' :: d) = (l, d, true) := by
  induction l with
  | nil => simp [cutAux]
  | cons c cs ih =>
    have hc : ¬ c = '@' := fun hh => h (hh ▸ List.mem_cons_self c cs)
    have hcs : '@' ∉ cs := fun hh => h (List.mem_cons_of_mem c hh)
    simp [cutAux, hc, ih hcs]

lemma cutAux_sound (cs : List Char) (h : (cutAux cs).2.2 = true) :
    cs = (cutAux cs).1 ++ '@' :: (cutAux cs).2.1 ∧ '@' ∉ (cutAux cs).1 := by
  induction cs with
  | nil => exact absurd h (by decide)
  | cons c cs ih =>
    by_cases hc : c = '@'
    · subst hc
      simp [cutAux]
    · rw [show cutAux (c :: cs) =
          (c :: (cutAux cs).1, (cutAux cs).2.1, (cutAux cs).2.2) from by
            simp [cutAux, hc]] at h ⊢
      obtain ⟨h1, h2⟩ := ih h
      exact ⟨by rw [List.cons_append, ← h1], by
        intro hm
        rcases List.mem_cons.mp hm with hm | hm
        · exact hc hm.symm
        · exact h2 hm⟩

/-- The strings for which `strings.Cut` produces a usable split: a first `@`
with a non-empty part before it and a non-empty part after it. -/
lemma goodSplit_iff (cs : List Char) :
    (∃ l d : List Char, cs = l ++ '@' :: d ∧ l ≠ [] ∧ d ≠ [] ∧ '@' ∉ l) ↔
    ((cutAux cs).2.2 = true ∧ (cutAux cs).1 ≠ [] ∧ (cutAux cs).2.1 ≠ []) := by
  constructor
  · rintro ⟨l, d, rfl, hl, hd, hni⟩
    rw [cutAux_split l d hni]
    exact ⟨rfl, hl, hd⟩
  · rintro ⟨hb, hl, hd⟩
    obtain ⟨h1, h2⟩ := cutAux_sound cs hb
    exact ⟨(cutAux cs).1, (cutAux cs).2.1, h1, hl, hd, h2⟩

lemma invalidAddr_ne_invalidDomain (a d : String) :
    invalidAddressError a ≠ invalidDomainError d := by
  unfold invalidAddressError invalidDomainError
  apply goErrorNeOfMessageNe
  intro hmsg
  have h2 : some 'e' = some 'd' :=
    congrArg (fun s : String => s.data[8]?) hmsg
  exact absurd h2 (by decide)

/-! ### C3 -/

/-- C3 counterexample: the claim says any string without exactly one `@`
producing two non-empty parts fails with the invalid-address error.
`"a@b@c"` has two `@`s, yet construction proceeds to domain validation and
fails with the invalid-domain error for `"b@c"` instead: `strings.Cut` splits
at the first `@` only. -/
theorem claim_C3_counterexample :
    ("a@b@c".data.count '@' = 2)
  ∧ NewMailboxWithAddress "a@b@c" = .error (invalidDomainError "b@c")
  ∧ NewMailboxWithAddress "a@b@c" ≠ .error (invalidAddressError "a@b@c") := by
  refine ⟨by decide, rfl, ?_⟩
  intro h
  rw [show NewMailboxWithAddress "a@b@c" = .error (invalidDomainError "b@c") from rfl] at h
  injection h with h2
  exact invalidAddr_ne_invalidDomain "a@b@c" "b@c" h2.symm

/-- C3 amended: `NewMailboxWithAddress` fails with the invalid-address error
(distinct from every invalid-domain error) exactly when the address has no
decomposition around its first `@` into a non-empty login and non-empty
remainder; when such a decomposition exists — even if the remainder contains
further `@`s — it proceeds to `NewMailbox`'s domain-registry validation. -/
theorem claim_C3_invalid_address (address : String) :
    (¬ (∃ l d : List Char, address.data = l ++ '@' :: d ∧ l ≠ [] ∧ d ≠ [] ∧ '@' ∉ l) →
        NewMailboxWithAddress address = .error (invalidAddressError address))
  ∧ (∀ l d : List Char, address.data = l ++ '@' :: d → l ≠ [] → d ≠ [] → '@' ∉ l →
        NewMailboxWithAddress address = NewMailbox (String.mk l) (String.mk d))
  ∧ (∀ d : String, invalidAddressError address ≠ invalidDomainError d) := by
  refine ⟨?_, ?_, fun d => invalidAddr_ne_invalidDomain address d⟩
  · intro hn
    unfold NewMailboxWithAddress goCut
    by_cases hb : (cutAux address.data).2.2 = true
    · have h1 : (cutAux address.data).1 = [] ∨ (cutAux address.data).2.1 = [] := by
        by_contra hc
        push_neg at hc
        exact hn ((goodSplit_iff address.data).mpr ⟨hb, hc.1, hc.2⟩)
      rcases h1 with h1 | h1 <;> simp [h1, mk_nil_eq_empty]
    · have hb2 : (cutAux address.data).2.2 = false := by
        cases hx : (cutAux address.data).2.2
        · rfl
        · exact absurd hx hb
      simp [hb2]
  · intro l d hdata hl hd hni
    unfold NewMailboxWithAddress goCut
    rw [hdata, cutAux_split l d hni]
    have hl2 : ¬ String.mk l = "" := fun hh => hl ((mk_eq_empty_iff l).mp hh)
    have hd2 : ¬ String.mk d = "" := fun hh => hd ((mk_eq_empty_iff d).mp hh)
    simp [hl2, hd2]

theorem claim_C3_witness :
    NewMailboxWithAddress "a@" = .error (invalidAddressError "a@")
  ∧ NewMailboxWithAddress "a@b" = NewMailbox "a" "b"
  ∧ invalidAddressError "a@" ≠ invalidDomainError "xyz" := by
  refine ⟨(claim_C3_invalid_address "a@").1 ?_,
    (claim_C3_invalid_address "a@b").2.1 ['a'] ['b'] rfl (by decide) (by decide) (by decide),
    (claim_C3_invalid_address "a@").2.2 "xyz"⟩
  intro hex
  exact absurd ((goodSplit_iff "a@".data).mp hex) (by decide)

/-! ### C4 -/

/-- C4 counterexample: the claim quantifies over every address of the form
`login@domain` with non-empty login and registered domain.  With login
`"a@b"` (non-empty) and registered domain `"1secmail.com"`, the address
`"a@b@1secmail.com"` is of that form, yet construction fails: the cut happens
at the first `@`, so domain validation sees `"b@1secmail.com"`. -/
theorem claim_C4_counterexample :
    ("a@b" ≠ "")
  ∧ Domains.contains "1secmail.com" = true
  ∧ NewMailboxWithAddress ("a@b" ++ "@" ++ "1secmail.com") =
      .error (invalidDomainError "b@1secmail.com") :=
  ⟨by decide, by decide, rfl⟩

lemma contains_ne_empty (domain : String) (h : Domains.contains domain = true) :
    domain ≠ "" := by
  intro hh
  subst hh
  exact absurd h (by decide)

/-- C4 amended: for every non-empty login that itself contains no `@` and
every registered domain, `NewMailboxWithAddress` on `login ++ "@" ++ domain`
succeeds and the constructed mailbox's `Address` is exactly the input
string. -/
theorem claim_C4_roundtrip (login domain : String) (h1 : login ≠ "")
    (h2 : '@' ∉ login.data) (h3 : Domains.contains domain = true) :
    NewMailboxWithAddress (login ++ "@" ++ domain) =
      .ok { Login := login, Domain := domain }
  ∧ Mailbox.Address { Login := login, Domain := domain } = login ++ "@" ++ domain := by
  refine ⟨?_, rfl⟩
  have hdata : (login ++ "@" ++ domain).data = login.data ++ '@' :: domain.data := by
    rw [data_append, data_append]
    simp
  unfold NewMailboxWithAddress goCut
  rw [hdata, cutAux_split login.data domain.data h2]
  have hl2 : ¬ String.mk login.data = "" := by
    rw [mk_data]
    exact h1
  have hd2 : ¬ String.mk domain.data = "" := by
    rw [mk_data]
    exact contains_ne_empty domain h3
  simp only [mk_data]
  rw [if_neg]
  · unfold NewMailbox
    rw [h3]
    simp
  · rw [mk_data] at hl2
    rw [mk_data] at hd2
    simp [hl2, hd2]

theorem claim_C4_witness :
    NewMailboxWithAddress ("john" ++ "@" ++ "1secmail.com") =
      .ok { Login := "john", Domain := "1secmail.com" }
  ∧ Mailbox.Address { Login := "john", Domain := "1secmail.com" } =
      "john" ++ "@" ++ "1secmail.com" :=
  claim_C4_roundtrip "john" "1secmail.com" (by decide) (by decide) (by decide)

/-! ### C9 -/

/-- C9: direct construction validates only the domain — for every registered
domain, `NewMailbox` accepts every login including the empty string, so a
mailbox whose `Address` is `"@domain"` is constructible; while
`NewMailboxWithAddress` rejects that same address for its empty local
part. -/
theorem claim_C9_empty_login (login domain : String)
    (h : Domains.contains domain = true) :
    NewMailbox login domain = .ok { Login := login, Domain := domain }
  ∧ NewMailbox "" domain = .ok { Login := "", Domain := domain }
  ∧ Mailbox.Address { Login := "", Domain := domain } = "@" ++ domain
  ∧ NewMailboxWithAddress ("@" ++ domain) =
      .error (invalidAddressError ("@" ++ domain)) := by
  refine ⟨?_, ?_, rfl, ?_⟩
  · unfold NewMailbox
    rw [h]
    simp
  · unfold NewMailbox
    rw [h]
    simp
  · unfold NewMailboxWithAddress goCut
    rw [show ("@" ++ domain).data = '@' :: domain.data from rfl]
    simp [cutAux, mk_nil_eq_empty]

theorem claim_C9_witness :
    NewMailbox "x" "1secmail.com" = .ok { Login := "x", Domain := "1secmail.com" }
  ∧ NewMailbox "" "1secmail.com" = .ok { Login := "", Domain := "1secmail.com" }
  ∧ Mailbox.Address { Login := "", Domain := "1secmail.com" } = "@" ++ "1secmail.com"
  ∧ NewMailboxWithAddress ("@" ++ "1secmail.com") =
      .error (invalidAddressError ("@" ++ "1secmail.com")) :=
  claim_C9_empty_login "x" "1secmail.com" (by decide)

/-! ### C6: well-typed message-summary objects -/

/-- Whether this `Except` value is a success. -/
def isOkE {ε α : Type} : Except ε α → Bool
  | .ok _ => true
  | .error _ => false

def isStrJ : Json → Bool
  | .str _ => true
  | _ => false

def isNumJ : Json → Bool
  | .num _ => true
  | _ => false

def attachmentFieldOk (k : String) (v : Json) : Bool :=
  if k = "filename" then isStrJ v
  else if k = "contentType" then isStrJ v
  else if k = "size" then isNumJ v
  else true

def attachmentJsonOk (j : Json) : Bool :=
  match j with
  | .obj fs => fs.all fun kv => attachmentFieldOk kv.1 kv.2
  | _ => false

/-- A field of a message-summary object: `id` is a number; `from`, `subject`,
`date` are strings; `attachments` is an array of well-typed attachment
objects; `body`, `textBody` and `htmlBody` are absent; unknown keys (ignored
by the decoder) are unconstrained. -/
def summaryFieldOk (k : String) (v : Json) : Bool :=
  if k = "id" then isNumJ v
  else if k = "from" then isStrJ v
  else if k = "subject" then isStrJ v
  else if k = "date" then isStrJ v
  else if k = "attachments" then
    match v with
    | .arr js => js.all attachmentJsonOk
    | _ => false
  else if k = "body" then false
  else if k = "textBody" then false
  else if k = "htmlBody" then false
  else true

def summaryObjOk (fs : List (String × Json)) : Bool :=
  fs.all fun kv => summaryFieldOk kv.1 kv.2

lemma applyAttachmentField_ok (a : Attachment) (k : String) (v : Json)
    (h : attachmentFieldOk k v = true) :
    ∃ a2, applyAttachmentField a k v = .ok a2 := by
  unfold attachmentFieldOk at h
  unfold applyAttachmentField
  split_ifs at h ⊢
  · cases v <;> simp_all [isStrJ, setStrField]
  · cases v <;> simp_all [isStrJ, setStrField]
  · cases v <;> simp_all [isNumJ]
  · exact ⟨a, rfl⟩

lemma foldAttachment_ok (fs : List (String × Json))
    (h : fs.all (fun kv => attachmentFieldOk kv.1 kv.2) = true) :
    ∀ a, ∃ a2, foldFields applyAttachmentField a fs = .ok a2 := by
  induction fs with
  | nil => exact fun a => ⟨a, rfl⟩
  | cons kv rest ih =>
    intro a
    rw [List.all_cons, Bool.and_eq_true] at h
    obtain ⟨a1, ha1⟩ := applyAttachmentField_ok a kv.1 kv.2 h.1
    obtain ⟨a2, ha2⟩ := ih h.2 a1
    refine ⟨a2, ?_⟩
    obtain ⟨k, v⟩ := kv
    unfold foldFields
    rw [ha1]
    exact ha2

lemma decodeAttachmentList_ok (js : List Json) (h : js.all attachmentJsonOk = true) :
    ∃ l, decodeAttachmentList js = .ok l := by
  induction js with
  | nil => exact ⟨[], rfl⟩
  | cons j rest ih =>
    rw [List.all_cons, Bool.and_eq_true] at h
    have hj : ∃ a, decodeAttachmentJson j = .ok a := by
      have h1 := h.1
      unfold attachmentJsonOk at h1
      cases j <;> simp_all [decodeAttachmentJson]
      exact foldAttachment_ok _ (List.all_eq_true.mpr fun kv hkv => h1 kv.1 kv.2 hkv) zeroAttachment
    obtain ⟨a, ha⟩ := hj
    obtain ⟨l, hl⟩ := ih h.2
    refine ⟨a :: l, ?_⟩
    unfold decodeAttachmentList
    rw [ha, hl]

/-- A well-typed summary field applies successfully and never touches the
body fields. -/
lemma applyMailField_summary_ok (m : Mail) (k : String) (v : Json)
    (h : summaryFieldOk k v = true) :
    ∃ m2, applyMailField m k v = .ok m2
      ∧ m2.Body = m.Body ∧ m2.TextBody = m.TextBody ∧ m2.HTMLBody = m.HTMLBody := by
  unfold summaryFieldOk at h
  unfold applyMailField
  split_ifs at h ⊢
  · cases v <;> simp_all [isNumJ]
  · cases v <;> simp_all [isStrJ, setStrField]
  · cases v <;> simp_all [isStrJ, setStrField]
  · cases v <;> simp_all [isStrJ, setStrField]
  · cases v <;> simp_all
    obtain ⟨l, hl⟩ := decodeAttachmentList_ok _ (List.all_eq_true.mpr h)
    rw [hl]
    exact ⟨_, rfl, rfl, rfl, rfl⟩
  · exact ⟨m, rfl, rfl, rfl, rfl⟩

lemma foldMail_summary_ok (fs : List (String × Json)) (h : summaryObjOk fs = true) :
    ∀ m : Mail, ∃ m2, foldFields applyMailField m fs = .ok m2
      ∧ m2.Body = m.Body ∧ m2.TextBody = m.TextBody ∧ m2.HTMLBody = m.HTMLBody := by
  induction fs with
  | nil => exact fun m => ⟨m, rfl, rfl, rfl, rfl⟩
  | cons kv rest ih =>
    intro m
    unfold summaryObjOk at h
    rw [List.all_cons, Bool.and_eq_true] at h
    obtain ⟨m1, hm1, hb1, ht1, hh1⟩ := applyMailField_summary_ok m kv.1 kv.2 h.1
    obtain ⟨m2, hm2, hb2, ht2, hh2⟩ := ih h.2 m1
    refine ⟨m2, ?_, hb2.trans hb1, ht2.trans ht1, hh2.trans hh1⟩
    obtain ⟨k, v⟩ := kv
    unfold foldFields
    rw [hm1]
    exact hm2

lemma decodePtrList_summaries (fss : List (List (String × Json)))
    (h : ∀ fs ∈ fss, summaryObjOk fs = true) :
    ∃ ms : List Mail, decodePtrList (fss.map Json.obj) = .ok (ms.map some)
      ∧ ms.length = fss.length
      ∧ ∀ i (h1 : i < fss.length) (h2 : i < ms.length),
          decodeMailObj (fss.get ⟨i, h1⟩) = .ok (ms.get ⟨i, h2⟩)
          ∧ (ms.get ⟨i, h2⟩).Body = none
          ∧ (ms.get ⟨i, h2⟩).TextBody = none
          ∧ (ms.get ⟨i, h2⟩).HTMLBody = none := by
  induction fss with
  | nil =>
    refine ⟨[], rfl, rfl, ?_⟩
    intro i h1 h2
    exact absurd h1 (Nat.not_lt_zero i)
  | cons fs rest ih =>
    obtain ⟨m, hm, hb, ht, hh⟩ :=
      foldMail_summary_ok fs (h fs (List.mem_cons_self fs rest)) zeroMail
    obtain ⟨ms, hms, hlen, hidx⟩ := ih (fun f hf => h f (List.mem_cons_of_mem fs hf))
    have hmo : decodeMailObj fs = .ok m := hm
    refine ⟨m :: ms, ?_, by simp [hlen], ?_⟩
    · simp [decodePtrList, decodeMailPtr, hmo, hms]
    · intro i h1 h2
      cases i with
      | zero => exact ⟨hmo, hb, ht, hh⟩
      | succ n => exact hidx n (Nat.lt_of_succ_lt_succ h1) (Nat.lt_of_succ_lt_succ h2)

/-- C6: on a 200 response whose body is a valid JSON array of N
message-summary objects (well-typed summary fields, no `body`/`textBody`/
`htmlBody` keys), `CheckInbox` returns exactly N mails and no error; the
i-th mail is exactly the decoding of the i-th object's fields, and its
`Body`, `TextBody` and `HTMLBody` are all absent. -/
theorem claim_C6_checkInbox_summaries (body : String)
    (fss : List (List (String × Json)))
    (hparse : parseOne body = .ok (.arr (fss.map Json.obj)))
    (hsum : ∀ fs ∈ fss, summaryObjOk fs = true) (m : Mailbox) :
    ∃ ms : List Mail,
      m.CheckInbox (stubTransport 200 body) = .ok (ms.map some)
      ∧ ms.length = fss.length
      ∧ ∀ i (h1 : i < fss.length) (h2 : i < ms.length),
          decodeMailObj (fss.get ⟨i, h1⟩) = .ok (ms.get ⟨i, h2⟩)
          ∧ (ms.get ⟨i, h2⟩).Body = none
          ∧ (ms.get ⟨i, h2⟩).TextBody = none
          ∧ (ms.get ⟨i, h2⟩).HTMLBody = none := by
  obtain ⟨ms, hdec, hlen, hidx⟩ := decodePtrList_summaries fss hsum
  refine ⟨ms, ?_, hlen, hidx⟩
  unfold Mailbox.CheckInbox stubTransport
  simp [respNon200, runDecode, hparse, decodeMailPtrList, hdec]

set_option maxRecDepth 10000 in
theorem claim_C6_witness :
    ∃ ms : List Mail,
      Mailbox.CheckInbox { Login := "foo", Domain := "1secmail.com" }
        (stubTransport 200 "[\x7b\"id\":639,\"from\":\"someone@example.com\",\"subject\":\"Some subject\",\"date\":\"2018-06-08 14:33:55\"\x7d,\x7b\"id\":640,\"from\":\"other@example.com\",\"subject\":\"Other subject\",\"date\":\"2018-06-08 14:40:55\"\x7d]")
        = .ok (ms.map some)
      ∧ ms.length =
          [[("id", Json.num 639), ("from", Json.str "someone@example.com"),
            ("subject", Json.str "Some subject"), ("date", Json.str "2018-06-08 14:33:55")],
           [("id", Json.num 640), ("from", Json.str "other@example.com"),
            ("subject", Json.str "Other subject"), ("date", Json.str "2018-06-08 14:40:55")]].length
      ∧ ∀ i (h1 : i <
          [[("id", Json.num 639), ("from", Json.str "someone@example.com"),
            ("subject", Json.str "Some subject"), ("date", Json.str "2018-06-08 14:33:55")],
           [("id", Json.num 640), ("from", Json.str "other@example.com"),
            ("subject", Json.str "Other subject"), ("date", Json.str "2018-06-08 14:40:55")]].length)
          (h2 : i < ms.length),
          decodeMailObj
            ([[("id", Json.num 639), ("from", Json.str "someone@example.com"),
               ("subject", Json.str "Some subject"), ("date", Json.str "2018-06-08 14:33:55")],
              [("id", Json.num 640), ("from", Json.str "other@example.com"),
               ("subject", Json.str "Other subject"), ("date", Json.str "2018-06-08 14:40:55")]].get ⟨i, h1⟩)
            = .ok (ms.get ⟨i, h2⟩)
          ∧ (ms.get ⟨i, h2⟩).Body = none
          ∧ (ms.get ⟨i, h2⟩).TextBody = none
          ∧ (ms.get ⟨i, h2⟩).HTMLBody = none :=
  claim_C6_checkInbox_summaries
    "[\x7b\"id\":639,\"from\":\"someone@example.com\",\"subject\":\"Some subject\",\"date\":\"2018-06-08 14:33:55\"\x7d,\x7b\"id\":640,\"from\":\"other@example.com\",\"subject\":\"Other subject\",\"date\":\"2018-06-08 14:40:55\"\x7d]"
    [[("id", Json.num 639), ("from", Json.str "someone@example.com"),
      ("subject", Json.str "Some subject"), ("date", Json.str "2018-06-08 14:33:55")],
     [("id", Json.num 640), ("from", Json.str "other@example.com"),
      ("subject", Json.str "Other subject"), ("date", Json.str "2018-06-08 14:40:55")]]
    rfl (by decide) { Login := "foo", Domain := "1secmail.com" }
